import Mathlib

/-!
Shallow embedding of the StudySync backend (Express + Mongoose study-group
task tracker).  Users, study groups and tasks are modelled as Lean
structures; each Express controller becomes a pure function from the
request data and the current database state (a list of records) to an
`ApiResult` and the next state.  Mongoose `ObjectId` values are modelled
as strings (the source always compares them via `toString()`), the random
source of `Math.random` is modelled as an explicit stream `Nat → Fin 36`,
and bcrypt hashing / comparison are passed in as function parameters.
-/

namespace StudySync

/-- User ids (`ObjectId.toString()` values). -/
abbrev UserId := String

/-- A user record (`backend/src/models/User.ts`).  `password` holds the
stored (hashed) password; the `lowercase` setter of the email path is
applied at creation and on query filters. -/
structure User where
  id : UserId
  username : String
  email : String
  password : String
  fullName : Option String
  deriving DecidableEq

/-- A study-group record (`backend/src/models/StudyGroup.ts`).
`createdAt` is the `timestamps` creation time (as a number). -/
structure Group where
  id : String
  name : String
  description : Option String
  creator : UserId
  members : List UserId
  joinCode : Option String
  isPrivate : Bool
  createdAt : Nat
  deriving DecidableEq

/-- A task record (`backend/src/models/Task.ts`).  `dueDate` is an
optional timestamp; `studyGroup` is the owning group's id. -/
structure Task where
  id : String
  title : String
  description : Option String
  dueDate : Option Nat
  assignedTo : Option UserId
  studyGroup : String
  status : String
  createdBy : UserId
  createdAt : Nat
  deriving DecidableEq

/-- Result of a controller: `ok` is the 2xx payload, `err` carries the
HTTP status code and the JSON `message` field. -/
inductive ApiResult (α : Type) where
  | ok (value : α) : ApiResult α
  | err (status : Nat) (message : String) : ApiResult α
  deriving DecidableEq

/-! ## Credential store (`backend/src/controllers/authController.ts`) -/

/-- The `lowercase: true` schema setter on the email path
(JavaScript `toLowerCase`), applied to stored emails and to email query
filters. -/
def lowerString (s : String) : String := String.mk (s.data.map Char.toLower)

/-- `registerUser` (POST /api/auth/register).  `hash` models the bcrypt
salt-and-hash of the `User` pre-save hook; `newId` the fresh `ObjectId`.
The duplicate check is `User.findOne({ $or: [{ username }, { email }] })`;
the `lowercase` schema setter applies to the stored email and to the
email query filter, making the email comparison case-insensitive. -/
def registerUser (hash : String → String) (db : List User)
    (username email password : String) (fullName : Option String)
    (newId : String) : ApiResult User × List User :=
  if username == "" || email == "" || password == "" then
    (.err 400 "Please enter all required fields (username, email, password).", db)
  else
    match db.find? (fun v => v.username == username || v.email == lowerString email) with
    | some _ => (.err 409 "User with that username or email already exists.", db)
    | none =>
      let u : User :=
        { id := newId, username := username, email := lowerString email,
          password := hash password, fullName := fullName }
      (.ok u, db ++ [u])

/-- `loginUser` (POST /api/auth/login).  `compare` models
`bcrypt.compare` applied to the candidate password and the stored hash. -/
def loginUser (compare : String → String → Bool) (db : List User)
    (email password : String) : ApiResult User :=
  if email == "" || password == "" then
    .err 400 "Please enter email and password."
  else
    match db.find? (fun v => v.email == lowerString email) with
    | none => .err 401 "Invalid email or password."
    | some u =>
      if compare password u.password then .ok u
      else .err 401 "Invalid email or password."

/-! ## StudyGroup pre-save hook (`backend/src/models/StudyGroup.ts`) -/

/-- The join-code alphabet of the pre-save hook. -/
def joinCodeChars : List Char := "ABCDEFGHIJKLMNOPQRSTUVWXYZ0123456789".toList

/-- The alphabet has 36 symbols (`characters.length`). -/
def joinCodeChars_length : (36 : Nat) = joinCodeChars.length := rfl

/-- The 8-iteration loop
`result += characters.charAt(Math.floor(Math.random()*characters.length))`
with the random draws supplied by `rand`. -/
def generateJoinCode (rand : Nat → Fin 36) : String :=
  String.mk ((List.range 8).map fun i =>
    joinCodeChars.get (Fin.cast joinCodeChars_length (rand i)))

/-- JavaScript falsiness of `group.joinCode` (`!group.joinCode`):
`undefined` or the empty string. -/
def jsFalsyCode : Option String → Bool
  | none => true
  | some s => s == ""

/-- The `StudyGroupSchema.pre('save')` hook.  `isNew` and
`isPrivateModified` model `this.isNew` and `this.isModified('isPrivate')`
of the document being saved. -/
def preSaveStudyGroup (rand : Nat → Fin 36) (isNew isPrivateModified : Bool)
    (g : Group) : Group :=
  if isPrivateModified || isNew then
    if g.isPrivate && jsFalsyCode g.joinCode then
      { g with joinCode := some (generateJoinCode rand) }
    else if !g.isPrivate then
      { g with joinCode := none }
    else g
  else g

/-- An 8-character string over the `[A-Z0-9]` alphabet. -/
def validCode (s : String) : Prop :=
  s.length = 8 ∧ ∀ c ∈ s.data, c ∈ joinCodeChars

/-- The join-code invariant: a private group carries a valid 8-character
code, a public group carries none. -/
def codeInv (g : Group) : Prop :=
  (g.isPrivate = true → ∃ s, g.joinCode = some s ∧ validCode s) ∧
  (g.isPrivate = false → g.joinCode = none)

/-! ## Group controller (`backend/src/controllers/studyGroupController.ts`) -/

/-- Request body of POST /api/groups; an absent `name` is modelled as
`""` (both are falsy in `if (!name)`). -/
structure CreateGroupBody where
  name : String
  description : Option String
  isPrivate : Option Bool
  deriving DecidableEq

/-- `createStudyGroup` (POST /api/groups).  `newId` and `now` supply the
fresh `ObjectId` and the `timestamps` creation time. -/
def createStudyGroup (rand : Nat → Fin 36) (db : List Group)
    (user : Option UserId) (body : CreateGroupBody) (newId : String)
    (now : Nat) : ApiResult Group × List Group :=
  match user with
  | none => (.err 401 "Not authorized, no user attached to request.", db)
  | some u =>
    if body.name == "" then
      (.err 400 "Group name is required.", db)
    else
      match db.find? (fun g => g.name == body.name) with
      | some _ => (.err 409 "A group with that name already exists.", db)
      | none =>
        let g0 : Group :=
          { id := newId, name := body.name, description := body.description,
            creator := u, members := [u], joinCode := none,
            isPrivate := body.isPrivate.getD true, createdAt := now }
        let g := preSaveStudyGroup rand true false g0
        (.ok g, db ++ [g])

/-- The query of `getStudyGroups`: `{ $or: [{isPrivate: false},
{members: user}] }` when a user is attached, `{isPrivate: false}`
otherwise. -/
def visibleTo (user : Option UserId) (g : Group) : Bool :=
  !g.isPrivate ||
    (match user with
     | some u => g.members.any (fun m => m == u)
     | none => false)

/-- `.sort({ createdAt: -1 })`: newest-created first. -/
def groupNewer (a b : Group) : Prop := b.createdAt ≤ a.createdAt

instance : DecidableRel groupNewer := fun a b => Nat.decLe b.createdAt a.createdAt

instance : IsTotal Group groupNewer := ⟨fun a b => Nat.le_total b.createdAt a.createdAt⟩

instance : IsTrans Group groupNewer := ⟨fun _ _ _ h1 h2 => Nat.le_trans h2 h1⟩

/-- `getStudyGroups` (GET /api/groups): filter by visibility, sort by
`createdAt` descending. -/
def getStudyGroups (db : List Group) (user : Option UserId) : List Group :=
  List.insertionSort groupNewer (db.filter (visibleTo user))

/-- `router.get('/', getStudyGroups)` registers no `protect` middleware
and nothing else assigns `req.user`, so the controller always runs with
`req.user` undefined, whatever credential the caller presented
(`resolvedUser` is the principal the caller's bearer token would resolve
to). -/
def getStudyGroupsEndpoint (db : List Group) (_resolvedUser : Option UserId) :
    List Group :=
  getStudyGroups db none

/-- `getStudyGroupById` (GET /api/groups/:id). -/
def getStudyGroupById (db : List Group) (user : Option UserId) (i : String) :
    ApiResult Group :=
  match db.find? (fun g => g.id == i) with
  | none => .err 404 "Study group not found."
  | some g =>
    if g.isPrivate &&
        !(match user with
          | some u => g.members.any (fun m => m == u)
          | none => false) then
      .err 403 "Not authorized to access this private group."
    else .ok g

/-- `router.route('/:id').get(getStudyGroupById)` registers no `protect`
middleware, so the controller always runs with `req.user` undefined. -/
def getStudyGroupByIdEndpoint (db : List Group) (_resolvedUser : Option UserId)
    (i : String) : ApiResult Group :=
  getStudyGroupById db none i

/-- JavaScript falsiness of the request's `joinCode`
(`!joinCode`): absent or the empty string. -/
def validJoinAttempt (g : Group) (joinCode : Option String) : Bool :=
  match joinCode with
  | none => false
  | some c => !(c == "") && g.joinCode == some c

/-- `joinStudyGroup` (POST /api/groups/:id/join).  The save of the
modified document runs the pre-save hook with `isPrivate` unmodified. -/
def joinStudyGroup (rand : Nat → Fin 36) (db : List Group)
    (user : Option UserId) (i : String) (joinCode : Option String) :
    ApiResult Group × List Group :=
  match user with
  | none => (.err 401 "Not authorized, no user attached to request.", db)
  | some u =>
    match db.find? (fun g => g.id == i) with
    | none => (.err 404 "Study group not found.", db)
    | some g =>
      if g.members.any (fun m => m == u) then
        (.err 400 "You are already a member of this group.", db)
      else if g.isPrivate && !(validJoinAttempt g joinCode) then
        (.err 403 "Invalid join code for this private group.", db)
      else
        let g' := preSaveStudyGroup rand false false
          { g with members := g.members ++ [u] }
        (.ok g', db.map fun h => if h.id == i then g' else h)

/-- `leaveStudyGroup` (POST /api/groups/:id/leave). -/
def leaveStudyGroup (rand : Nat → Fin 36) (db : List Group)
    (user : Option UserId) (i : String) : ApiResult Group × List Group :=
  match user with
  | none => (.err 401 "Not authorized, no user attached to request.", db)
  | some u =>
    match db.find? (fun g => g.id == i) with
    | none => (.err 404 "Study group not found.", db)
    | some g =>
      if g.creator == u && g.members.length == 1 then
        (.err 403 "As the sole creator and member, you cannot leave. Delete the group instead.", db)
      else
        let ms := g.members.filter (fun m => !(m == u))
        if ms.length == g.members.length then
          (.err 400 "You are not a member of this group.", db)
        else
          let g' := preSaveStudyGroup rand false false { g with members := ms }
          (.ok g', db.map fun h => if h.id == i then g' else h)

/-- Request body of PUT /api/groups/:id; an absent `name` is modelled as
`""` (both are falsy in `if (name)`). -/
structure UpdateGroupBody where
  name : String
  description : Option String
  isPrivate : Option Bool
  deriving DecidableEq

/-- The field updates of `updateStudyGroup`: `name` only when truthy
(absent and `""` are falsy and skipped), `description` and `isPrivate`
whenever present (`!== undefined`).  The three sequential writes of the
source touch disjoint fields, so they are rendered as a single record
update. -/
def applyGroupUpdates (g : Group) (body : UpdateGroupBody) : Group :=
  { g with
    name := if body.name == "" then g.name else body.name
    description := (match body.description with
      | some d => some d
      | none => g.description)
    isPrivate := body.isPrivate.getD g.isPrivate }

/-- `updateStudyGroup` (PUT /api/groups/:id).  The controller clears the
join code whenever the group ends up public; the save then runs the
pre-save hook with `isModified('isPrivate')` true exactly when the value
changed, and the unique index on `name` raises the 11000 → 409 branch
when another group holds the new name. -/
def updateStudyGroup (rand : Nat → Fin 36) (db : List Group)
    (user : Option UserId) (i : String) (body : UpdateGroupBody) :
    ApiResult Group × List Group :=
  match user with
  | none => (.err 401 "Not authorized, no user attached to request.", db)
  | some u =>
    match db.find? (fun g => g.id == i) with
    | none => (.err 404 "Study group not found.", db)
    | some g =>
      if !(g.creator == u) then
        (.err 403 "Not authorized to update this group.", db)
      else
        let g3 := applyGroupUpdates g body
        let g4 := if !g3.isPrivate then { g3 with joinCode := none } else g3
        let g5 := preSaveStudyGroup rand false (g3.isPrivate != g.isPrivate) g4
        if db.any (fun h => h.name == g5.name && !(h.id == g.id)) then
          (.err 409 "Group name already in use.", db)
        else
          (.ok g5, db.map fun h => if h.id == i then g5 else h)

/-! ## Task controller (`backend/src/controllers/taskController.ts`) -/

/-- Boolean order of `.sort({ dueDate: 1, createdAt: -1 })` as MongoDB
executes it: in an ascending sort a document whose `dueDate` is missing
sorts as null, which precedes every date in the BSON comparison order;
ties are broken by `createdAt` descending. -/
def mongoTaskLEb (a b : Task) : Bool :=
  match a.dueDate, b.dueDate with
  | none, none => b.createdAt ≤ a.createdAt
  | none, some _ => true
  | some _, none => false
  | some x, some y => x < y || (x == y && b.createdAt ≤ a.createdAt)

/-- Propositional form of `mongoTaskLEb`. -/
def mongoTaskLE (a b : Task) : Prop := mongoTaskLEb a b = true

instance : DecidableRel mongoTaskLE := fun a b =>
  inferInstanceAs (Decidable (mongoTaskLEb a b = true))

/-- The task order the specification describes: due date ascending with
undated tasks placed last, ties broken by creation time descending. -/
def specTaskLEb (a b : Task) : Bool :=
  match a.dueDate, b.dueDate with
  | none, none => b.createdAt ≤ a.createdAt
  | none, some _ => false
  | some _, none => true
  | some x, some y => x < y || (x == y && b.createdAt ≤ a.createdAt)

/-- Propositional form of `specTaskLEb`. -/
def specTaskLE (a b : Task) : Prop := specTaskLEb a b = true

instance : DecidableRel specTaskLE := fun a b =>
  inferInstanceAs (Decidable (specTaskLEb a b = true))

/-- `getTasks` (GET /api/groups/:groupId/tasks): membership-gated, then
`Task.find({ studyGroup: groupId }).sort({ dueDate: 1, createdAt: -1 })`. -/
def getTasks (gdb : List Group) (tdb : List Task) (user : Option UserId)
    (groupId : String) : ApiResult (List Task) :=
  match user with
  | none => .err 401 "Not authorized, no user attached to request."
  | some u =>
    match gdb.find? (fun g => g.id == groupId) with
    | none => .err 404 "Study group not found."
    | some g =>
      if !(g.members.any (fun m => m == u)) then
        .err 403 "Not authorized to view tasks in this group."
      else
        .ok (List.insertionSort mongoTaskLE
          (tdb.filter (fun t => t.studyGroup == groupId)))

/-- Request body of PUT /api/groups/:groupId/tasks/:taskId.  `none`
models an absent (`undefined`) field; `assignedTo` distinguishes
`undefined` (outer `none`), `null` (`some none`) and an id. -/
structure UpdateTaskBody where
  title : Option String
  description : Option String
  dueDate : Option Nat
  assignedTo : Option (Option String)
  status : Option String
  deriving DecidableEq

/-- The PUT body with every field absent. -/
def emptyUpdateTaskBody : UpdateTaskBody :=
  { title := none, description := none, dueDate := none,
    assignedTo := none, status := none }

/-- `Types.ObjectId.isValid` on the string form: 24 hexadecimal
characters. -/
def isValidObjectId (s : String) : Bool :=
  s.length == 24 && s.toList.all (fun c => c.isDigit || ('a' ≤ c && c ≤ 'f'))

/-- The field updates of `updateTask` prior to the `assignedTo`
handling: `title`, `dueDate` and `status` change only when the field is
truthy (absent fields, `""` and the number `0` are falsy and skipped);
`description` changes whenever the field is present (`!== undefined`).
The four sequential writes of the source touch disjoint fields, so they
are rendered as a single record update. -/
def applyTaskUpdates (t : Task) (body : UpdateTaskBody) : Task :=
  { t with
    title := (match body.title with
      | some s => if s == "" then t.title else s
      | none => t.title)
    description := (match body.description with
      | some d => some d
      | none => t.description)
    dueDate := (match body.dueDate with
      | some n => if n == 0 then t.dueDate else some n
      | none => t.dueDate)
    status := (match body.status with
      | some s => if s == "" then t.status else s
      | none => t.status) }

/-- `updateTask` (PUT /api/groups/:groupId/tasks/:taskId). -/
def updateTask (gdb : List Group) (tdb : List Task) (user : Option UserId)
    (groupId taskId : String) (body : UpdateTaskBody) :
    ApiResult Task × List Task :=
  match user with
  | none => (.err 401 "Not authorized, no user attached to request.", tdb)
  | some u =>
    match gdb.find? (fun g => g.id == groupId) with
    | none => (.err 404 "Study group not found.", tdb)
    | some g =>
      if !(g.members.any (fun m => m == u)) then
        (.err 403 "Not authorized to update tasks in this group.", tdb)
      else
        match tdb.find? (fun t => t.id == taskId) with
        | none => (.err 404 "Task not found.", tdb)
        | some t =>
          if !(t.studyGroup == groupId) then
            (.err 400 "Task does not belong to the specified group.", tdb)
          else
            let isCreator := t.createdBy == u
            let isAssigned := t.assignedTo == some u
            let isAdminOrGroupCreator := g.creator == u
            if !isCreator && !isAssigned && !isAdminOrGroupCreator then
              (.err 403 "Not authorized to update this task.", tdb)
            else
              let t4 := applyTaskUpdates t body
              match body.assignedTo with
              | none =>
                (.ok t4, tdb.map fun x => if x.id == taskId then t4 else x)
              | some none =>
                let t5 := { t4 with assignedTo := none }
                (.ok t5, tdb.map fun x => if x.id == taskId then t5 else x)
              | some (some a) =>
                if !(isValidObjectId a) then
                  (.err 400 ("Invalid assignedTo user ID format: " ++ a), tdb)
                else if !(g.members.any (fun m => m == a)) then
                  (.err 400 ("Assigned user " ++ a ++ " is not a member of this group."), tdb)
                else
                  let t5 := { t4 with assignedTo := some a }
                  (.ok t5, tdb.map fun x => if x.id == taskId then t5 else x)

/-- `deleteTask` (DELETE /api/groups/:groupId/tasks/:taskId). -/
def deleteTask (gdb : List Group) (tdb : List Task) (user : Option UserId)
    (groupId taskId : String) : ApiResult String × List Task :=
  match user with
  | none => (.err 401 "Not authorized, no user attached to request.", tdb)
  | some u =>
    match gdb.find? (fun g => g.id == groupId) with
    | none => (.err 404 "Study group not found.", tdb)
    | some g =>
      if !(g.members.any (fun m => m == u)) then
        (.err 403 "Not authorized to delete tasks in this group.", tdb)
      else
        match tdb.find? (fun t => t.id == taskId) with
        | none => (.err 404 "Task not found.", tdb)
        | some t =>
          if !(t.studyGroup == groupId) then
            (.err 400 "Task does not belong to the specified group.", tdb)
          else
            let isTaskCreator := t.createdBy == u
            let isGroupCreator := g.creator == u
            if !isTaskCreator && !isGroupCreator then
              (.err 403 "Not authorized to delete this task.", tdb)
            else
              (.ok "Task deleted successfully.",
               tdb.filter (fun x => !(x.id == taskId)))

/-! ## Concrete sample records (used by witnesses and counterexamples) -/

/-- A constant random stream: every draw picks index 0, i.e. 'A'. -/
def rand0 : Nat → Fin 36 := fun _ => 0

/-- A public group created by user "a". -/
def gPub : Group :=
  { id := "g1", name := "Open Group", description := none, creator := "a",
    members := ["a"], joinCode := none, isPrivate := false, createdAt := 1 }

/-- A private group created by "a" with member "b". -/
def gPriv : Group :=
  { id := "g2", name := "Closed Group", description := none, creator := "a",
    members := ["a", "b"], joinCode := some "ABCD1234", isPrivate := true,
    createdAt := 2 }

/-- A private group whose creator is its sole member. -/
def gSolo : Group :=
  { id := "g3", name := "Solo Group", description := none, creator := "a",
    members := ["a"], joinCode := some "ZZZZ9999", isPrivate := true,
    createdAt := 3 }

/-- A stored user record (email already lowercased by the setter). -/
def uAlice : User :=
  { id := "u1", username := "alice", email := "alice@mail.com",
    password := "stored-hash", fullName := none }

/-- A task of `gPriv` with a due date. -/
def tDated : Task :=
  { id := "t1", title := "dated task", description := none, dueDate := some 5,
    assignedTo := none, studyGroup := "g2", status := "pending",
    createdBy := "a", createdAt := 1 }

/-- A task of `gPriv` without a due date, created later. -/
def tUndated : Task :=
  { id := "t2", title := "undated task", description := none, dueDate := none,
    assignedTo := none, studyGroup := "g2", status := "pending",
    createdBy := "a", createdAt := 2 }

/-- A task of `gPriv` created by "a" and assigned to "b". -/
def tAssigned : Task :=
  { id := "t3", title := "assigned task", description := none, dueDate := none,
    assignedTo := some "b", studyGroup := "g2", status := "pending",
    createdBy := "a", createdAt := 3 }

/-- A task-update body with an empty title, empty description, falsy due
date and a null assignee. -/
def bodyW : UpdateTaskBody :=
  { title := some "", description := some "", dueDate := some 0,
    assignedTo := some none, status := none }

/-- `tAssigned` after the update carried by `bodyW`. -/
def tCleared : Task :=
  { id := "t3", title := "assigned task", description := some "",
    dueDate := none, assignedTo := none, studyGroup := "g2",
    status := "pending", createdBy := "a", createdAt := 3 }

/-- The group produced by creating "G" as a private group with the
stream `rand0` (all draws pick 'A'). -/
def gFresh : Group :=
  { id := "g9", name := "G", description := none, creator := "a",
    members := ["a"], joinCode := some "AAAAAAAA", isPrivate := true,
    createdAt := 7 }

/-! ## Theorems -/

/-- C1: the claim says a private group is returned by GET /api/groups/:id
exactly when the caller is an authenticated member.  The code cannot
deliver this: `router.route('/:id').get(getStudyGroupById)` mounts the
controller without the `protect` middleware and nothing else assigns
`req.user`, so the membership test always runs against an absent
principal.  Evaluated at the failing input: "b" is a member of the
private group `gPriv`, presents a valid credential resolving to "b", and
is still refused with 403. -/
theorem getStudyGroupById_member_forbidden_bug :
    gPriv.isPrivate = true ∧ "b" ∈ gPriv.members ∧
    getStudyGroupByIdEndpoint [gPriv] (some "b") "g2" =
      .err 403 "Not authorized to access this private group." := by
  refine ⟨rfl, by decide, rfl⟩

/-- C2: the claim says an authenticated caller of GET /api/groups receives
the public groups plus every group they belong to.  The route
`router.get('/', getStudyGroups)` has no `protect` middleware, so
`req.user` is always undefined and the `$or` membership branch of the
query is unreachable: an authenticated member "b" receives only the
public groups, their private group is missing. -/
theorem getStudyGroups_principal_ignored_bug :
    "b" ∈ gPriv.members ∧ gPriv ∈ [gPub, gPriv] ∧
    getStudyGroupsEndpoint [gPub, gPriv] (some "b") = [gPub] ∧
    gPriv ∉ getStudyGroupsEndpoint [gPub, gPriv] (some "b") := by
  refine ⟨by decide, by decide, rfl, by decide⟩

/-- C7: leaving a group (POST /api/groups/:id/leave): when the caller is
the creator and the members list has exactly one element the call fails
with 403 and leaves the state unchanged; otherwise, when the caller is a
member, it succeeds and the new members list holds exactly the old
members other than the caller. -/
theorem leaveStudyGroup_spec (rand : Nat → Fin 36) (db : List Group)
    (u : UserId) (i : String) (g : Group)
    (hfind : db.find? (fun x => x.id == i) = some g) :
    (g.creator = u ∧ g.members.length = 1 →
      leaveStudyGroup rand db (some u) i =
        (.err 403 "As the sole creator and member, you cannot leave. Delete the group instead.", db)) ∧
    (¬(g.creator = u ∧ g.members.length = 1) → u ∈ g.members →
      leaveStudyGroup rand db (some u) i =
        (.ok { g with members := g.members.filter (fun m => !(m == u)) },
         db.map fun h => if h.id == i then
           { g with members := g.members.filter (fun m => !(m == u)) } else h) ∧
      ∀ m, m ∈ g.members.filter (fun m => !(m == u)) ↔ m ∈ g.members ∧ m ≠ u) := by
  constructor
  · rintro ⟨hc, hl⟩
    simp [leaveStudyGroup, hfind, hc, hl]
  · intro hnot hmem
    have hcond : (g.creator == u && g.members.length == 1) = false := by
      by_cases h1 : g.creator = u
      · by_cases h2 : g.members.length = 1
        · exact absurd ⟨h1, h2⟩ hnot
        · simp [h2]
      · simp [h1]
    have hlt : (g.members.filter (fun m => !(m == u))).length < g.members.length :=
      List.length_filter_lt_length_iff_exists.mpr ⟨u, hmem, by simp⟩
    have hne : ((g.members.filter (fun m => !(m == u))).length
        == g.members.length) = false :=
      beq_eq_false_iff_ne.mpr (Nat.ne_of_lt hlt)
    refine ⟨?_, ?_⟩
    · simp [leaveStudyGroup, hfind, hcond, hne, preSaveStudyGroup]
    · intro m
      simp [List.mem_filter]

/-- C7 witness: the sole creator-member "a" of `gSolo` cannot leave. -/
theorem leaveStudyGroup_spec_witness :
    (gSolo.creator = "a" ∧ gSolo.members.length = 1) ∧
    leaveStudyGroup rand0 [gSolo] (some "a") "g3" =
      (.err 403 "As the sole creator and member, you cannot leave. Delete the group instead.", [gSolo]) :=
  ⟨⟨rfl, rfl⟩, (leaveStudyGroup_spec rand0 [gSolo] "a" "g3" gSolo rfl).1 ⟨rfl, rfl⟩⟩

/-- C8: `loginUser` answers identically whether no user carries the
requested email or a user does but the password comparison fails: the
result of the call is literally the same in a database without the email
and in any database where every user holding the email fails the
password check. -/
theorem loginUser_uniform_error (compare : String → String → Bool)
    (db1 db2 : List User) (e p : String)
    (h1 : db1.find? (fun v => v.email == lowerString e) = none)
    (h2 : ∀ u ∈ db2, u.email = lowerString e → compare p u.password = false) :
    loginUser compare db1 e p = loginUser compare db2 e p := by
  unfold loginUser
  by_cases hv : (e == "" || p == "") = true
  · simp [hv]
  · simp only [Bool.not_eq_true] at hv
    rw [hv, h1]
    cases hfind : db2.find? (fun v => v.email == lowerString e) with
    | none => simp
    | some u =>
      have hu : u ∈ db2 := List.mem_of_find?_eq_some hfind
      have he : u.email = lowerString e := by
        simpa using List.find?_some hfind
      simp [h2 u hu he]

/-- C8 witness: an empty database and a one-user database with a wrong
password produce the same response. -/
theorem loginUser_uniform_error_witness :
    ([] : List User).find? (fun v => v.email == lowerString "Alice@Mail.com") = none ∧
    (∀ u ∈ [uAlice], u.email = lowerString "Alice@Mail.com" →
      (fun (c s : String) => c == s) "wrong" u.password = false) ∧
    loginUser (fun c s => c == s) [] "Alice@Mail.com" "wrong" =
      loginUser (fun c s => c == s) [uAlice] "Alice@Mail.com" "wrong" :=
  ⟨rfl, by decide,
    loginUser_uniform_error (fun c s => c == s) [] [uAlice]
      "Alice@Mail.com" "wrong" rfl (by decide)⟩

/-- C9: registering while some stored user already holds the requested
username, or an email equal up to letter case, yields 409 Conflict and
leaves the user collection unchanged (stored emails are lowercased by
the schema setter, and the same setter applies to the query filter). -/
theorem registerUser_conflict (hash : String → String) (db : List User)
    (u0 : User) (username email password : String) (fullName : Option String)
    (newId : String)
    (hu0 : u0 ∈ db)
    (hlow : ∀ v ∈ db, lowerString v.email = v.email)
    (hU : username ≠ "") (hE : email ≠ "") (hP : password ≠ "")
    (hdup : u0.username = username ∨ lowerString u0.email = lowerString email) :
    registerUser hash db username email password fullName newId =
      (.err 409 "User with that username or email already exists.", db) := by
  unfold registerUser
  have hval : (username == "" || email == "" || password == "") = false := by
    simp [hU, hE, hP]
  rw [hval]
  have hex : ∃ x ∈ db, (x.username == username || x.email == lowerString email) = true := by
    refine ⟨u0, hu0, ?_⟩
    rcases hdup with h | h
    · simp [h]
    · have hx : u0.email = lowerString email := by rw [← hlow u0 hu0, h]
      simp [hx]
  have hsome := List.find?_isSome.mpr hex
  cases hfind : db.find? (fun v => v.username == username || v.email == lowerString email) with
  | none => rw [hfind] at hsome; simp at hsome
  | some y => simp [hfind]

/-- C9 witness: with "alice" stored, registering "bob" under the same
email in different letter case is rejected with 409 and the collection
is unchanged. -/
theorem registerUser_conflict_witness :
    uAlice ∈ [uAlice] ∧
    (lowerString uAlice.email = lowerString "Alice@Mail.com") ∧
    registerUser (fun s => s) [uAlice] "bob" "Alice@Mail.com" "secret" none "u2" =
      (.err 409 "User with that username or email already exists.", [uAlice]) :=
  ⟨by decide, by decide,
    registerUser_conflict (fun s => s) [uAlice] uAlice "bob" "Alice@Mail.com"
      "secret" none "u2" (by decide) (by decide) (by decide) (by decide)
      (by decide) (Or.inr (by decide))⟩

/-- C6: for a task delete request by a group member against a task of
the group, deletion succeeds exactly when the caller is the task's
creator or the group's creator; a caller who is only the task's assignee
is refused with 403, while the very same caller's update request is
accepted. -/
theorem deleteTask_authorization (gdb : List Group) (tdb : List Task)
    (u : UserId) (groupId taskId : String) (g : Group) (t : Task)
    (hg : gdb.find? (fun x => x.id == groupId) = some g)
    (hm : u ∈ g.members)
    (ht : tdb.find? (fun x => x.id == taskId) = some t)
    (hb : t.studyGroup = groupId) :
    ((deleteTask gdb tdb (some u) groupId taskId).1 =
        .ok "Task deleted successfully." ↔ (t.createdBy = u ∨ g.creator = u)) ∧
    (t.assignedTo = some u → t.createdBy ≠ u → g.creator ≠ u →
      (deleteTask gdb tdb (some u) groupId taskId).1 =
        .err 403 "Not authorized to delete this task." ∧
      (updateTask gdb tdb (some u) groupId taskId emptyUpdateTaskBody).1 =
        .ok t) := by
  have hmem : (g.members.any fun m => m == u) = true :=
    List.any_eq_true.mpr ⟨u, hm, by simp⟩
  constructor
  · by_cases hc1 : t.createdBy = u
    · simp [deleteTask, hg, ht, hmem, hb, hc1]
    · by_cases hc2 : g.creator = u
      · simp [deleteTask, hg, ht, hmem, hb, hc1, hc2]
      · simp [deleteTask, hg, ht, hmem, hb, hc1, hc2]
  · intro ha hc1 hc2
    have hbel : (t.studyGroup == groupId) = true := beq_iff_eq.mpr hb
    have haT : (t.assignedTo == some u) = true := by rw [ha]; simp
    constructor
    · simp [deleteTask, hg, ht, hmem, hb, hc1, hc2]
    · simp [updateTask, hg, ht, hmem, hbel, haT, hc1, hc2, emptyUpdateTaskBody,
        applyTaskUpdates]

/-- C6 witness: "b", the assignee (but neither task creator nor group
creator) of `tAssigned` in `gPriv`, may update but not delete. -/
theorem deleteTask_authorization_witness :
    tAssigned.assignedTo = some "b" ∧ tAssigned.createdBy ≠ "b" ∧
    gPriv.creator ≠ "b" ∧
    (deleteTask [gPriv] [tAssigned] (some "b") "g2" "t3").1 =
      .err 403 "Not authorized to delete this task." ∧
    (updateTask [gPriv] [tAssigned] (some "b") "g2" "t3"
      emptyUpdateTaskBody).1 = .ok tAssigned := by
  have hmain := deleteTask_authorization [gPriv] [tAssigned] "b" "g2" "t3"
    gPriv tAssigned rfl (by decide) rfl rfl
  exact ⟨rfl, by decide, by decide,
    (hmain.2 rfl (by decide) (by decide)).1, (hmain.2 rfl (by decide) (by decide)).2⟩

/-- C10: an authorized task update leaves `title` unchanged when the
requested title is absent or empty, leaves `dueDate` unchanged when the
requested due date is absent or falsy (so a due date can never be
cleared), stores any present `description` (including an empty one), and
clears `assignedTo` when `null` is passed. -/
theorem updateTask_frame (gdb : List Group) (tdb : List Task) (u : UserId)
    (groupId taskId : String) (body : UpdateTaskBody) (t t' : Task)
    (tdb2 : List Task)
    (ht : tdb.find? (fun x => x.id == taskId) = some t)
    (h : updateTask gdb tdb (some u) groupId taskId body = (.ok t', tdb2)) :
    ((body.title = none ∨ body.title = some "") → t'.title = t.title) ∧
    ((body.dueDate = none ∨ body.dueDate = some 0) → t'.dueDate = t.dueDate) ∧
    (∀ d, body.description = some d → t'.description = some d) ∧
    (body.assignedTo = some none → t'.assignedTo = none) := by
  cases hgf : gdb.find? (fun x => x.id == groupId) with
  | none => simp [updateTask, hgf] at h
  | some g =>
    have hfr : (body.assignedTo = none ∧ t' = applyTaskUpdates t body) ∨
        (body.assignedTo = some none ∧
          t' = { applyTaskUpdates t body with assignedTo := none }) ∨
        (∃ a, body.assignedTo = some (some a) ∧
          t' = { applyTaskUpdates t body with assignedTo := some a }) := by
      cases hba : body.assignedTo with
      | none =>
        simp only [updateTask, hgf, ht, hba] at h
        split at h
        · simp at h
        · split at h
          · simp at h
          · split at h
            · simp at h
            · simp only [Prod.mk.injEq, ApiResult.ok.injEq] at h
              exact Or.inl ⟨rfl, h.1.symm⟩
      | some x =>
        cases x with
        | none =>
          simp only [updateTask, hgf, ht, hba] at h
          split at h
          · simp at h
          · split at h
            · simp at h
            · split at h
              · simp at h
              · simp only [Prod.mk.injEq, ApiResult.ok.injEq] at h
                exact Or.inr (Or.inl ⟨rfl, h.1.symm⟩)
        | some a =>
          simp only [updateTask, hgf, ht, hba] at h
          split at h
          · simp at h
          · split at h
            · simp at h
            · split at h
              · simp at h
              · split at h
                · simp at h
                · split at h
                  · simp at h
                  · simp only [Prod.mk.injEq, ApiResult.ok.injEq] at h
                    exact Or.inr (Or.inr ⟨a, rfl, h.1.symm⟩)
    have htit : t'.title = (applyTaskUpdates t body).title := by
      rcases hfr with ⟨_, rfl⟩ | ⟨_, rfl⟩ | ⟨a, _, rfl⟩ <;> rfl
    have hdue : t'.dueDate = (applyTaskUpdates t body).dueDate := by
      rcases hfr with ⟨_, rfl⟩ | ⟨_, rfl⟩ | ⟨a, _, rfl⟩ <;> rfl
    have hdesc : t'.description = (applyTaskUpdates t body).description := by
      rcases hfr with ⟨_, rfl⟩ | ⟨_, rfl⟩ | ⟨a, _, rfl⟩ <;> rfl
    refine ⟨?_, ?_, ?_, ?_⟩
    · rintro (hT | hT) <;> simp [htit, applyTaskUpdates, hT]
    · rintro (hD | hD) <;> simp [hdue, applyTaskUpdates, hD]
    · intro d hd
      simp [hdesc, applyTaskUpdates, hd]
    · intro hA
      rcases hfr with ⟨hba, rfl⟩ | ⟨hba, rfl⟩ | ⟨a, hba, rfl⟩
      · rw [hba] at hA; cases hA
      · rfl
      · rw [hba] at hA; simp at hA

/-- C10 witness: an update carrying an empty title, a falsy due date, an
empty description and a null assignee keeps title and due date, stores
the empty description and clears the assignee. -/
theorem updateTask_frame_witness :
    tCleared.title = tAssigned.title ∧
    tCleared.dueDate = tAssigned.dueDate ∧
    tCleared.description = some "" ∧ tCleared.assignedTo = none := by
  have hmain := updateTask_frame [gPriv] [tAssigned] "a" "g2" "t3" bodyW
    tAssigned tCleared [tCleared] rfl (by decide)
  exact ⟨hmain.1 (Or.inr rfl), hmain.2.1 (Or.inr rfl),
    hmain.2.2.1 "" rfl, hmain.2.2.2 rfl⟩

instance : IsTotal Task mongoTaskLE := by
  constructor
  intro a b
  unfold mongoTaskLE mongoTaskLEb
  rcases a.dueDate with _ | x <;> rcases b.dueDate with _ | y <;> simp <;> omega

instance : IsTrans Task mongoTaskLE := by
  constructor
  intro a b c hab hbc
  unfold mongoTaskLE mongoTaskLEb at *
  rcases hA : a.dueDate with _ | x <;> rcases hB : b.dueDate with _ | y <;>
    rcases hC : c.dueDate with _ | z <;>
    simp only [hA, hB, hC] at hab hbc ⊢ <;> simp_all <;> omega

/-- C4 counterexample: the claim orders undated tasks last, but
ascending MongoDB sorts place a missing `dueDate` (compared as null)
before every date: for member "a" of `gPriv`, listing the two tasks
returns the undated one first, which the claimed order rejects. -/
theorem getTasks_undated_first_cex :
    getTasks [gPriv] [tDated, tUndated] (some "a") "g2" =
      .ok [tUndated, tDated] ∧
    tUndated.dueDate = none ∧ tDated.dueDate = some 5 ∧
    ¬ List.Sorted specTaskLE [tUndated, tDated] := by
  refine ⟨rfl, rfl, rfl, ?_⟩
  intro hs
  have hrel := (List.sorted_cons.mp hs).1 tDated (by decide)
  exact absurd hrel (by decide)

/-- C4 (amended): for a member, GET /api/groups/:groupId/tasks returns
exactly the group's tasks, sorted by due date ascending with undated
tasks first (missing values precede dates in an ascending MongoDB sort)
and ties broken by creation time descending. -/
theorem getTasks_mongo_order (gdb : List Group) (tdb : List Task)
    (user : Option UserId) (groupId : String) (l : List Task)
    (h : getTasks gdb tdb user groupId = .ok l) :
    List.Sorted mongoTaskLE l ∧
    ∀ x, x ∈ l ↔ x ∈ tdb ∧ x.studyGroup = groupId := by
  cases user with
  | none => simp [getTasks] at h
  | some u =>
    cases hg : gdb.find? (fun g => g.id == groupId) with
    | none => simp [getTasks, hg] at h
    | some g =>
      simp only [getTasks, hg] at h
      split at h
      · simp at h
      · injection h with h2
        subst h2
        refine ⟨List.sorted_insertionSort _ _, fun x => ?_⟩
        rw [(List.perm_insertionSort _ _).mem_iff, List.mem_filter]
        simp

/-- C4 witness: the returned concrete list is sorted in the MongoDB
order. -/
theorem getTasks_mongo_order_witness :
    List.Sorted mongoTaskLE [tUndated, tDated] :=
  (getTasks_mongo_order [gPriv] [tDated, tUndated] (some "a") "g2"
    [tUndated, tDated] rfl).1

/-- The generated join code is 8 characters over `[A-Z0-9]`. -/
theorem generateJoinCode_valid (rand : Nat → Fin 36) :
    validCode (generateJoinCode rand) := by
  constructor
  · show ((List.range 8).map _).length = 8
    simp
  · intro c hc
    have hc2 : c ∈ (List.range 8).map
        (fun i => joinCodeChars.get (Fin.cast joinCodeChars_length (rand i))) := hc
    rw [List.mem_map] at hc2
    obtain ⟨i, -, rfl⟩ := hc2
    exact List.get_mem _ _ _

/-- A valid join code is non-empty. -/
theorem validCode_ne_empty (s : String) (hv : validCode s) : (s == "") = false := by
  refine beq_eq_false_iff_ne.mpr ?_
  intro h
  rw [h] at hv
  exact absurd hv.1 (by decide)

/-- The pre-save hook writes only `joinCode`. -/
theorem preSaveStudyGroup_fields (rand : Nat → Fin 36) (n m : Bool) (g : Group) :
    (preSaveStudyGroup rand n m g).members = g.members ∧
    (preSaveStudyGroup rand n m g).creator = g.creator ∧
    (preSaveStudyGroup rand n m g).isPrivate = g.isPrivate ∧
    (preSaveStudyGroup rand n m g).name = g.name := by
  unfold preSaveStudyGroup
  split
  · split
    · exact ⟨rfl, rfl, rfl, rfl⟩
    · split
      · exact ⟨rfl, rfl, rfl, rfl⟩
      · exact ⟨rfl, rfl, rfl, rfl⟩
  · exact ⟨rfl, rfl, rfl, rfl⟩

/-- Triggered on a private document with a falsy code, the hook
generates a fresh one. -/
theorem preSaveStudyGroup_gen (rand : Nat → Fin 36) (n m : Bool) (g : Group)
    (htr : (m || n) = true) (hp : g.isPrivate = true)
    (hc : jsFalsyCode g.joinCode = true) :
    preSaveStudyGroup rand n m g =
      { g with joinCode := some (generateJoinCode rand) } := by
  simp [preSaveStudyGroup, htr, hp, hc]

/-- On a public document carrying no code the hook leaves both fields
public and code-free. -/
theorem preSaveStudyGroup_public (rand : Nat → Fin 36) (n m : Bool) (g : Group)
    (hp : g.isPrivate = false) (hc : g.joinCode = none) :
    (preSaveStudyGroup rand n m g).isPrivate = false ∧
    (preSaveStudyGroup rand n m g).joinCode = none := by
  unfold preSaveStudyGroup
  split
  · simp [hp, hc, jsFalsyCode]
  · exact ⟨hp, hc⟩

/-- On a private document with a non-empty code the hook is a no-op. -/
theorem preSaveStudyGroup_keep (rand : Nat → Fin 36) (n m : Bool) (g : Group)
    (hp : g.isPrivate = true) (s : String) (hc : g.joinCode = some s)
    (hs : (s == "") = false) :
    preSaveStudyGroup rand n m g = g := by
  simp [preSaveStudyGroup, hp, hc, jsFalsyCode, hs]

/-- Saving a new code-free document yields the invariant: a private one
receives the generated code, a public one stays code-free. -/
theorem preSaveStudyGroup_new_codeInv (rand : Nat → Fin 36) (g : Group)
    (hc : g.joinCode = none) : codeInv (preSaveStudyGroup rand true false g) := by
  by_cases hp : g.isPrivate = true
  · rw [preSaveStudyGroup_gen rand true false g rfl hp (by rw [hc]; rfl)]
    exact ⟨fun _ => ⟨generateJoinCode rand, rfl, generateJoinCode_valid rand⟩,
      fun hf2 => absurd (hp.symm.trans hf2) (by decide)⟩
  · have hp' : g.isPrivate = false := by simpa using hp
    obtain ⟨hpub, hcode⟩ := preSaveStudyGroup_public rand true false g hp' hc
    exact ⟨fun ht => absurd (hpub.symm.trans ht) (by decide), fun _ => hcode⟩

/-- C5: the join-code invariant — a private group carries an 8-character
`[A-Z0-9]` code and a public group carries none — is established by
group creation, preserved by the pre-save hook and by update; an update
making the group public clears the code, and an update toggling a public
group private installs the freshly generated code. -/
theorem joinCode_invariant :
    (∀ rand db user body newId now g db2,
      createStudyGroup rand db user body newId now = (.ok g, db2) →
      codeInv g) ∧
    (∀ rand n m g, codeInv g → codeInv (preSaveStudyGroup rand n m g)) ∧
    (∀ rand db u i body g0 g db2,
      db.find? (fun x => x.id == i) = some g0 → codeInv g0 →
      updateStudyGroup rand db (some u) i body = (.ok g, db2) →
      codeInv g) ∧
    (∀ rand db u i body g0 g db2,
      db.find? (fun x => x.id == i) = some g0 →
      body.isPrivate = some false →
      updateStudyGroup rand db (some u) i body = (.ok g, db2) →
      g.joinCode = none) ∧
    (∀ rand db u i body g0 g db2,
      db.find? (fun x => x.id == i) = some g0 → g0.isPrivate = false →
      g0.joinCode = none → body.isPrivate = some true →
      updateStudyGroup rand db (some u) i body = (.ok g, db2) →
      g.joinCode = some (generateJoinCode rand)) := by
  refine ⟨?_, ?_, ?_, ?_, ?_⟩
  · -- creation
    intro rand db user body newId now g db2 h
    cases user with
    | none => simp [createStudyGroup] at h
    | some u =>
      simp only [createStudyGroup] at h
      split at h
      · simp at h
      · cases hf : db.find? (fun x => x.name == body.name) with
        | some y => rw [hf] at h; simp at h
        | none =>
          rw [hf] at h
          simp only [Prod.mk.injEq, ApiResult.ok.injEq] at h
          obtain ⟨rfl, -⟩ := h
          exact preSaveStudyGroup_new_codeInv rand _ rfl
  · -- the hook alone
    intro rand n m g hinv
    by_cases hp : g.isPrivate = true
    · obtain ⟨s, hc, hv⟩ := hinv.1 hp
      rw [preSaveStudyGroup_keep rand n m g hp s hc (validCode_ne_empty s hv)]
      exact hinv
    · have hp' : g.isPrivate = false := by simpa using hp
      obtain ⟨hpub, hcode⟩ := preSaveStudyGroup_public rand n m g hp' (hinv.2 hp')
      exact ⟨fun ht => absurd (hpub.symm.trans ht) (by decide), fun _ => hcode⟩
  · -- update preserves the invariant
    intro rand db u i body g0 g db2 hfind hinv h
    simp only [updateStudyGroup, hfind] at h
    split at h
    · simp at h
    · split at h
      · -- the controller cleared the code: the saved group is public
        rename_i hpp
        have hp' : (applyGroupUpdates g0 body).isPrivate = false := by
          simpa using hpp
        split at h
        · simp at h
        · simp only [Prod.mk.injEq, ApiResult.ok.injEq] at h
          obtain ⟨rfl, -⟩ := h
          obtain ⟨hpub, hcode⟩ := preSaveStudyGroup_public rand false
            ((applyGroupUpdates g0 body).isPrivate != g0.isPrivate)
            { applyGroupUpdates g0 body with joinCode := none } hp' rfl
          exact ⟨fun ht => absurd (hpub.symm.trans ht) (by decide),
            fun _ => hcode⟩
      · -- the saved group is private
        rename_i hpp
        have hp : (applyGroupUpdates g0 body).isPrivate = true := by
          simpa using hpp
        split at h
        · simp at h
        · simp only [Prod.mk.injEq, ApiResult.ok.injEq] at h
          obtain ⟨rfl, -⟩ := h
          by_cases hp0 : g0.isPrivate = true
          · obtain ⟨s, hc, hv⟩ := hinv.1 hp0
            have hcA : (applyGroupUpdates g0 body).joinCode = some s := hc
            rw [preSaveStudyGroup_keep rand false
              ((applyGroupUpdates g0 body).isPrivate != g0.isPrivate)
              (applyGroupUpdates g0 body) hp s hcA (validCode_ne_empty s hv)]
            exact ⟨fun _ => ⟨s, hcA, hv⟩,
              fun hf2 => absurd (hp.symm.trans hf2) (by decide)⟩
          · have hp0' : g0.isPrivate = false := by simpa using hp0
            have hcA : (applyGroupUpdates g0 body).joinCode = none :=
              hinv.2 hp0'
            rw [preSaveStudyGroup_gen rand false
              ((applyGroupUpdates g0 body).isPrivate != g0.isPrivate)
              (applyGroupUpdates g0 body) (by rw [hp, hp0']; rfl) hp
              (by rw [hcA]; rfl)]
            exact ⟨fun _ =>
              ⟨generateJoinCode rand, rfl, generateJoinCode_valid rand⟩,
              fun hf2 => absurd (hp.symm.trans hf2) (by decide)⟩
  · -- toggling public clears the code
    intro rand db u i body g0 g db2 hfind hbp h
    have hp' : (applyGroupUpdates g0 body).isPrivate = false := by
      simp [applyGroupUpdates, hbp]
    simp only [updateStudyGroup, hfind] at h
    split at h
    · simp at h
    · split at h
      · split at h
        · simp at h
        · simp only [Prod.mk.injEq, ApiResult.ok.injEq] at h
          obtain ⟨rfl, -⟩ := h
          exact (preSaveStudyGroup_public rand false
            ((applyGroupUpdates g0 body).isPrivate != g0.isPrivate)
            { applyGroupUpdates g0 body with joinCode := none } hp' rfl).2
      · rename_i hpp
        exact absurd (by simp [hp']) hpp
  · -- toggling a public group private installs the fresh code
    intro rand db u i body g0 g db2 hfind hp0 hc0 hbp h
    have hp : (applyGroupUpdates g0 body).isPrivate = true := by
      simp [applyGroupUpdates, hbp]
    have hcA : (applyGroupUpdates g0 body).joinCode = none := hc0
    simp only [updateStudyGroup, hfind] at h
    split at h
    · simp at h
    · split at h
      · rename_i hpp
        rw [hp] at hpp
        exact absurd hpp (by decide)
      · split at h
        · simp at h
        · simp only [Prod.mk.injEq, ApiResult.ok.injEq] at h
          obtain ⟨rfl, -⟩ := h
          rw [preSaveStudyGroup_gen rand false
            ((applyGroupUpdates g0 body).isPrivate != g0.isPrivate)
            (applyGroupUpdates g0 body) (by rw [hp, hp0]; rfl) hp
            (by rw [hcA]; rfl)]

/-- C5 witness: creating the private group "G" with the constant stream
`rand0` yields the code "AAAAAAAA" and the invariant holds. -/
theorem joinCode_invariant_witness :
    createStudyGroup rand0 [] (some "a") ⟨"G", none, some true⟩ "g9" 7 =
      (.ok gFresh, [gFresh]) ∧ codeInv gFresh :=
  ⟨by decide, joinCode_invariant.1 rand0 [] (some "a") ⟨"G", none, some true⟩
    "g9" 7 gFresh [gFresh] (by decide)⟩

/-- C3 counterexample: the creator "a" of `gPriv` (which has the second
member "b") successfully leaves, the group persists, and its creator is
no longer a member — refuting "creator is always a member after every
operation that leaves the group in existence". -/
theorem creator_leaves_cex :
    gPriv.creator = "a" ∧ "a" ∈ gPriv.members ∧
    (leaveStudyGroup rand0 [gPriv] (some "a") "g2").1 =
      .ok { gPriv with members := ["b"] } ∧
    gPriv.creator ∉ ({ gPriv with members := ["b"] } : Group).members := by
  exact ⟨rfl, by decide, by decide, by decide⟩

/-- C3 (amended): the creator is a member of the freshly created group,
and membership of the creator is preserved by join, by update, and by a
leave whose caller is not the creator; a successful leave by the creator
themself (possible as soon as another member exists) is the one
operation that removes the creator from the members list. -/
theorem creator_membership_amended :
    (∀ rand db user body newId now g db2,
      createStudyGroup rand db user body newId now = (.ok g, db2) →
      g.creator ∈ g.members) ∧
    (∀ rand db u i code g0 g db2,
      db.find? (fun x => x.id == i) = some g0 → g0.creator ∈ g0.members →
      joinStudyGroup rand db (some u) i code = (.ok g, db2) →
      g.creator ∈ g.members) ∧
    (∀ rand db u i body g0 g db2,
      db.find? (fun x => x.id == i) = some g0 → g0.creator ∈ g0.members →
      updateStudyGroup rand db (some u) i body = (.ok g, db2) →
      g.creator ∈ g.members) ∧
    (∀ rand db u i g0 g db2,
      db.find? (fun x => x.id == i) = some g0 → g0.creator ∈ g0.members →
      u ≠ g0.creator →
      leaveStudyGroup rand db (some u) i = (.ok g, db2) →
      g.creator ∈ g.members) := by
  refine ⟨?_, ?_, ?_, ?_⟩
  · -- creation: the creator is the sole initial member
    intro rand db user body newId now g db2 h
    cases user with
    | none => simp [createStudyGroup] at h
    | some u =>
      simp only [createStudyGroup] at h
      split at h
      · simp at h
      · cases hf : db.find? (fun x => x.name == body.name) with
        | some y => rw [hf] at h; simp at h
        | none =>
          rw [hf] at h
          simp only [Prod.mk.injEq, ApiResult.ok.injEq] at h
          obtain ⟨rfl, -⟩ := h
          obtain ⟨hm, hc, -, -⟩ := preSaveStudyGroup_fields rand true false _
          rw [hm, hc]
          simp
  · -- join appends a member
    intro rand db u i code g0 g db2 hfind hmem0 h
    simp only [joinStudyGroup, hfind] at h
    split at h
    · simp at h
    · split at h
      · simp at h
      · simp only [Prod.mk.injEq, ApiResult.ok.injEq] at h
        obtain ⟨rfl, -⟩ := h
        obtain ⟨hm, hc, -, -⟩ := preSaveStudyGroup_fields rand false false _
        rw [hm, hc]
        exact List.mem_append.mpr (Or.inl hmem0)
  · -- update never touches the members list
    intro rand db u i body g0 g db2 hfind hmem0 h
    simp only [updateStudyGroup, hfind] at h
    split at h
    · simp at h
    · split at h
      · split at h
        · simp at h
        · simp only [Prod.mk.injEq, ApiResult.ok.injEq] at h
          obtain ⟨rfl, -⟩ := h
          obtain ⟨hm, hc, -, -⟩ := preSaveStudyGroup_fields rand false
            ((applyGroupUpdates g0 body).isPrivate != g0.isPrivate)
            { applyGroupUpdates g0 body with joinCode := none }
          rw [hm, hc]
          exact hmem0
      · split at h
        · simp at h
        · simp only [Prod.mk.injEq, ApiResult.ok.injEq] at h
          obtain ⟨rfl, -⟩ := h
          obtain ⟨hm, hc, -, -⟩ := preSaveStudyGroup_fields rand false
            ((applyGroupUpdates g0 body).isPrivate != g0.isPrivate)
            (applyGroupUpdates g0 body)
          rw [hm, hc]
          exact hmem0
  · -- a leave by a non-creator keeps the creator
    intro rand db u i g0 g db2 hfind hmem0 hne h
    simp only [leaveStudyGroup, hfind] at h
    split at h
    · simp at h
    · split at h
      · simp at h
      · simp only [Prod.mk.injEq, ApiResult.ok.injEq] at h
        obtain ⟨rfl, -⟩ := h
        obtain ⟨hm, hc, -, -⟩ := preSaveStudyGroup_fields rand false false _
        rw [hm, hc]
        have hcu : (g0.creator == u) = false := beq_eq_false_iff_ne.mpr (Ne.symm hne)
        exact List.mem_filter.mpr ⟨hmem0, by simp [hcu]⟩

/-- C3 witness: the freshly created group's creator is among its
members. -/
theorem creator_membership_amended_witness :
    createStudyGroup rand0 [] (some "a") ⟨"G", none, some true⟩ "g9" 7 =
      (.ok gFresh, [gFresh]) ∧ gFresh.creator ∈ gFresh.members :=
  ⟨by decide, creator_membership_amended.1 rand0 [] (some "a")
    ⟨"G", none, some true⟩ "g9" 7 gFresh [gFresh] (by decide)⟩

end StudySync
